import Mathlib

/-!
Verification of the smt-sqlite node/root persistence layer.

The Go source (`sql.go`) is shallowly embedded: byte slices become
`List Nat`, nilable slices become `Option (List Nat)`, the two SQLite
tables become lists of row structures, and the upsert statements become
explicit list transformations matching their ON CONFLICT semantics.
Database-driver failures are modelled by an optional injected fault: the
code under verification only ever branches on the error value a call
returns, so an `Option String` (the driver error's message) captures all
behaviours the Go code can observe.
-/

namespace SmtSqlite

/-- Decidable equality of `Except` results, so that concrete runs of the
model can be checked by `decide`. -/
instance {ε α : Type} [DecidableEq ε] [DecidableEq α] :
    DecidableEq (Except ε α) := fun a b =>
  match a, b with
  | .ok x, .ok y =>
    if h : x = y then isTrue (by simp [h]) else isFalse (by simp [h])
  | .error x, .error y =>
    if h : x = y then isTrue (by simp [h]) else isFalse (by simp [h])
  | .ok _, .error _ => isFalse (by simp)
  | .error _, .ok _ => isFalse (by simp)

/-- Go's `copy(dst, src)` on byte slices: copies `min dst.length src.length`
bytes of `src` into the front of `dst`, keeping the rest of `dst`. -/
def goCopy (dst src : List Nat) : List Nat :=
  src.take dst.length ++ dst.drop src.length

/-- `merkletree.ElemBytesLen`: the fixed hash size in bytes. -/
def ElemBytesLen : Nat := 32

/-- A freshly allocated `merkletree.Hash{}`: 32 zero bytes. -/
def zeroHash : List Nat := List.replicate 32 0

/-- `merkletree.Node`: type discriminant, nilable child hashes, and the two
nilable halves of the leaf entry (`Entry [2]*Hash` in Go). -/
structure Node where
  type : Nat
  childL : Option (List Nat)
  childR : Option (List Nat)
  entry0 : Option (List Nat)
  entry1 : Option (List Nat)
deriving DecidableEq, Repr

/-- A row of the `mt_nodes` table / the `NodeItem` scan target.
`none` is a SQL NULL (a nil Go slice). -/
structure NodeItem where
  mtId : Nat
  key : List Nat
  type : Nat
  childL : Option (List Nat)
  childR : Option (List Nat)
  entry : Option (List Nat)
  createdAt : Option Nat
  deletedAt : Option Nat
deriving DecidableEq, Repr

/-- A row of the `mt_roots` table / the `RootItem` scan target. -/
structure RootItem where
  mtId : Nat
  key : List Nat
  createdAt : Option Nat
  deletedAt : Option Nat
deriving DecidableEq, Repr

/-- The two tables created by `schema`. -/
structure Database where
  nodes : List NodeItem
  roots : List RootItem
deriving DecidableEq, Repr

def Database.empty : Database := ⟨[], []⟩

/-- The `Storage` struct: instance id, (unused) version, and the root cache. -/
structure Storage where
  mtId : Nat
  currentVersion : Nat
  currentRoot : Option (List Nat)
deriving DecidableEq, Repr

/-- `NewSqlStorage`: fresh backend for an instance id, cache cold. -/
def NewSqlStorage (mtId : Nat) : Storage :=
  { mtId := mtId, currentVersion := 0, currentRoot := none }

/-- The error values the layer can produce: `sql.ErrNoRows`,
`merkletree.ErrNotFound`, `merkletree.ErrNodeBytesBadSize`, an arbitrary
driver error, and the wrapping `storageError`. -/
inductive GoError where
  | errNoRows
  | errNotFound
  | errNodeBytesBadSize
  | dbError (msg : String)
  | storageError (err : GoError) (msg : String)
deriving DecidableEq, Repr

/-- `storageError.Error()`; the other variants carry their Go message. -/
def GoError.errorMsg : GoError → String
  | .errNoRows => "sql: no rows in result set"
  | .errNotFound => "key not found"
  | .errNodeBytesBadSize => "node bytes have bad size"
  | .dbError m => m
  | .storageError e m => m ++ ": " ++ e.errorMsg

/-- `storageError.Unwrap()`; other errors do not unwrap. -/
def GoError.unwrap : GoError → Option GoError
  | .storageError e _ => some e
  | _ => none

/-- `newErr(err, msg)`. -/
def newErr (e : GoError) (msg : String) : GoError :=
  .storageError e msg

/-- Decoder `NodeItem.Node()`: children are copied into fresh zero hashes
when present; a nonempty entry must be exactly `2*ElemBytesLen` bytes and is
split into two fresh hashes. -/
def NodeItem.toNode (item : NodeItem) : Except GoError Node :=
  let childL : Option (List Nat) := item.childL.map (fun b => goCopy zeroHash b)
  let childR : Option (List Nat) := item.childR.map (fun b => goCopy zeroHash b)
  let e : List Nat := item.entry.getD []
  if e.length > 0 then
    if e.length ≠ 2 * ElemBytesLen then
      .error .errNodeBytesBadSize
    else
      .ok { type := item.type, childL := childL, childR := childR,
            entry0 := some (goCopy zeroHash (e.take 32)),
            entry1 := some (goCopy zeroHash ((e.drop 32).take 32)) }
  else
    .ok { type := item.type, childL := childL, childR := childR,
          entry0 := none, entry1 := none }

/-- `Put`'s encoding of a child pointer: nil slice when absent, a copy of
the 32 hash bytes when present. -/
def encodeChild : Option (List Nat) → Option (List Nat)
  | some h => some h
  | none => none

/-- `Put`'s encoding of the entry column: the concatenation of the two
halves when both are present, nil otherwise. -/
def encodeEntry (n : Node) : Option (List Nat) :=
  match n.entry0, n.entry1 with
  | some e0, some e1 => some (e0 ++ e1)
  | _, _ => none

/-- The `mt_nodes` row `Put` sends for `(mtId, key, node)`;
`created_at`/`deleted_at` are not populated. -/
def putRow (mtId : Nat) (key : List Nat) (n : Node) : NodeItem :=
  { mtId := mtId, key := key, type := n.type,
    childL := encodeChild n.childL, childR := encodeChild n.childR,
    entry := encodeEntry n, createdAt := none, deletedAt := none }

/-- The predicate of `WHERE mt_id = ? AND key = ?` and of the node upsert's
conflict target `(mt_id, key)`. -/
def nodeKeyMatches (r : NodeItem) (mtId : Nat) (key : List Nat) : Bool :=
  r.mtId == mtId && r.key == key

/-- The DO UPDATE clause of the node upsert, applied to a row: a row
conflicting on `(mt_id, key)` gets its `type`, `child_l`, `child_r` and
`entry` columns overwritten; other rows are untouched. -/
def applyNodeUpdate (row r : NodeItem) : NodeItem :=
  if nodeKeyMatches r row.mtId row.key then
    { r with type := row.type, childL := row.childL,
             childR := row.childR, entry := row.entry }
  else r

/-- `upsertStmt`: insert the row; on a `(mt_id, key)` conflict overwrite
only `type`, `child_l`, `child_r`, `entry`. -/
def upsertNode (db : Database) (row : NodeItem) : Database :=
  if db.nodes.any (fun r => nodeKeyMatches r row.mtId row.key) then
    { db with nodes := db.nodes.map (applyNodeUpdate row) }
  else
    { db with nodes := db.nodes ++ [row] }

/-- The DO UPDATE clause of the root upsert, applied to a row. -/
def applyRootUpdate (mtId : Nat) (key : List Nat) (r : RootItem) : RootItem :=
  if r.mtId == mtId then { r with key := key } else r

/-- `updateRootStmt`: insert `(mt_id, key)`; on an `mt_id` conflict
overwrite only `key`. -/
def upsertRoot (db : Database) (mtId : Nat) (key : List Nat) : Database :=
  if db.roots.any (fun r => r.mtId == mtId) then
    { db with roots := db.roots.map (applyRootUpdate mtId key) }
  else
    let row : RootItem :=
      { mtId := mtId, key := key, createdAt := none, deletedAt := none }
    { db with roots := db.roots ++ [row] }

/-- `SELECT * FROM mt_nodes WHERE mt_id = ? AND key = ?` (first match). -/
def findNode (db : Database) (mtId : Nat) (key : List Nat) : Option NodeItem :=
  db.nodes.find? (fun r => nodeKeyMatches r mtId key)

/-- `SELECT * FROM mt_roots WHERE mt_id = ?` (first match). -/
def findRoot (db : Database) (mtId : Nat) : Option RootItem :=
  db.roots.find? (fun r => r.mtId == mtId)

/-- `GetContext` against `mt_nodes`: an injected driver fault is returned
as-is; with no fault, no matching row gives `sql.ErrNoRows`, otherwise the
row is bound. -/
def getContextNode (db : Database) (fault : Option String) (mtId : Nat)
    (key : List Nat) : Except GoError NodeItem :=
  match fault with
  | some m => .error (.dbError m)
  | none =>
    match findNode db mtId key with
    | none => .error .errNoRows
    | some item => .ok item

/-- `GetContext` against `mt_roots`. -/
def getContextRoot (db : Database) (fault : Option String) (mtId : Nat) :
    Except GoError RootItem :=
  match fault with
  | some m => .error (.dbError m)
  | none =>
    match findRoot db mtId with
    | none => .error .errNoRows
    | some item => .ok item

/-- `Storage.Get`: `sql.ErrNoRows` becomes `merkletree.ErrNotFound`, other
errors pass through, a bound row is decoded. -/
def Storage.Get (s : Storage) (db : Database) (fault : Option String)
    (key : List Nat) : Except GoError Node :=
  match getContextNode db fault s.mtId key with
  | .error e => if e = .errNoRows then .error .errNotFound else .error e
  | .ok item => item.toNode

/-- `Storage.Put`: encode the node and run the node upsert; a driver fault
is returned unchanged and leaves the database as it was. -/
def Storage.Put (s : Storage) (db : Database) (fault : Option String)
    (key : List Nat) (node : Node) : Database × Except GoError Unit :=
  match fault with
  | some m => (db, .error (.dbError m))
  | none => (upsertNode db (putRow s.mtId key node), .ok ())

/-- `Storage.GetRoot`: a warm cache is copied out without touching the
database; otherwise the root row is looked up (`ErrNoRows` becoming
`ErrNotFound`), cached, and a copy returned. -/
def Storage.GetRoot (s : Storage) (db : Database) (fault : Option String) :
    Storage × Except GoError (List Nat) :=
  match s.currentRoot with
  | some c => (s, .ok (goCopy zeroHash c))
  | none =>
    match getContextRoot db fault s.mtId with
    | .error e =>
      if e = .errNoRows then (s, .error .errNotFound) else (s, .error e)
    | .ok item =>
      let newRoot := goCopy zeroHash item.key
      ({ s with currentRoot := some newRoot }, .ok (goCopy zeroHash newRoot))

/-- `Storage.SetRoot`: the cache is overwritten first (allocating it when
nil), then the root upsert runs; a write failure is wrapped with
"failed to update current root hash" and leaves the database unchanged. -/
def Storage.SetRoot (s : Storage) (db : Database) (fault : Option String)
    (hash : List Nat) : Storage × Database × Except GoError Unit :=
  let cur : List Nat :=
    match s.currentRoot with
    | none => zeroHash
    | some c => c
  let newCur := goCopy cur hash
  let s1 : Storage := { s with currentRoot := some newCur }
  match fault with
  | some m =>
    (s1, db, .error (newErr (.dbError m) "failed to update current root hash"))
  | none => (s1, upsertRoot db s.mtId newCur, .ok ())

/-- A write operation against the shared tables, tagged with the instance
id it runs under. -/
inductive Op where
  | putOp (mtId : Nat) (key : List Nat) (node : Node)
  | setRootOp (mtId : Nat) (hash : List Nat)
deriving DecidableEq, Repr

/-- Run one successful write operation against the database. -/
def applyOp (db : Database) : Op → Database
  | .putOp mtId key node => (Storage.Put (NewSqlStorage mtId) db none key node).1
  | .setRootOp mtId h => (Storage.SetRoot (NewSqlStorage mtId) db none h).2.1

/-- Run a sequence of successful write operations. -/
def applyOps (db : Database) : List Op → Database
  | [] => db
  | op :: rest => applyOps (applyOp db op) rest

/-- Does the operation write the `mt_nodes` row of `(mtId, key)`? -/
def writesNodeKey : Op → Nat → List Nat → Bool
  | .putOp m k _, mtId, key => m == mtId && k == key
  | .setRootOp _ _, _, _ => false

/-- The spec's Node shape invariant (§3): a leaf has both entry halves and
no children, a middle node has both children and no entry, an empty node
has neither; present hashes have the fixed 32-byte size. The discriminant
values are those of `merkletree.NodeType`. -/
def ValidNode (n : Node) : Prop :=
  (n.type = 1 ∧ n.childL = none ∧ n.childR = none ∧
    ∃ e0 e1, e0.length = 32 ∧ e1.length = 32 ∧
      n.entry0 = some e0 ∧ n.entry1 = some e1) ∨
  (n.type = 0 ∧
    (∃ l r, l.length = 32 ∧ r.length = 32 ∧
      n.childL = some l ∧ n.childR = some r) ∧
    n.entry0 = none ∧ n.entry1 = none) ∨
  (n.type = 2 ∧ n.childL = none ∧ n.childR = none ∧
    n.entry0 = none ∧ n.entry1 = none)

/-- The `mt_nodes` PRIMARY KEY invariant: no two rows share `(mt_id, key)`. -/
def NodesWF (db : Database) : Prop :=
  db.nodes.Pairwise (fun a b => ¬(a.mtId = b.mtId ∧ a.key = b.key))

/-- The root cache only ever holds full 32-byte hashes. -/
def CacheWF (s : Storage) : Prop :=
  ∀ c, s.currentRoot = some c → c.length = 32

/-! ### Basic lemmas about the byte-copy and the match predicates -/

theorem goCopy_zeroHash (h : List Nat) (hl : h.length = 32) :
    goCopy zeroHash h = h := by
  unfold goCopy zeroHash
  rw [List.length_replicate, List.take_of_length_le (by omega),
      List.drop_eq_nil_of_le (by simp [hl]), List.append_nil]

theorem goCopy_of_length_eq (dst src : List Nat) (h : dst.length = src.length) :
    goCopy dst src = src := by
  unfold goCopy
  rw [h, List.take_length, ← h, List.drop_length, List.append_nil]

theorem drop_replicate_nat (m n : Nat) (x : Nat) :
    (List.replicate n x).drop m = List.replicate (n - m) x := by
  induction m generalizing n with
  | zero => simp
  | succ m ih =>
    cases n with
    | zero => simp
    | succ n => simp [List.replicate_succ, ih]

theorem goCopy_zeroHash_eq_take_pad (b : List Nat) :
    goCopy zeroHash b = b.take 32 ++ List.replicate (32 - b.length) 0 := by
  unfold goCopy zeroHash
  rw [List.length_replicate, drop_replicate_nat]

theorem nodeKeyMatches_iff (r : NodeItem) (m : Nat) (k : List Nat) :
    nodeKeyMatches r m k = true ↔ (r.mtId = m ∧ r.key = k) := by
  simp [nodeKeyMatches]

theorem nodeKeyMatches_self (r : NodeItem) :
    nodeKeyMatches r r.mtId r.key = true := by
  simp [nodeKeyMatches]

theorem applyNodeUpdate_mtId (row r : NodeItem) :
    (applyNodeUpdate row r).mtId = r.mtId := by
  unfold applyNodeUpdate; split <;> rfl

theorem applyNodeUpdate_key (row r : NodeItem) :
    (applyNodeUpdate row r).key = r.key := by
  unfold applyNodeUpdate; split <;> rfl

theorem nodeKeyMatches_applyNodeUpdate (row r : NodeItem) (m : Nat)
    (k : List Nat) :
    nodeKeyMatches (applyNodeUpdate row r) m k = nodeKeyMatches r m k := by
  unfold nodeKeyMatches
  rw [applyNodeUpdate_mtId, applyNodeUpdate_key]

theorem applyNodeUpdate_of_not_matches (row r : NodeItem)
    (h : ¬ nodeKeyMatches r row.mtId row.key) :
    applyNodeUpdate row r = r := by
  unfold applyNodeUpdate
  rw [if_neg h]

theorem applyRootUpdate_mtId (mtId : Nat) (key : List Nat) (r : RootItem) :
    (applyRootUpdate mtId key r).mtId = r.mtId := by
  unfold applyRootUpdate; split <;> rfl

/-! ### Lookup after upsert -/

theorem find?_map_applyNodeUpdate (l : List NodeItem) (row : NodeItem)
    (m : Nat) (k : List Nat) :
    (l.map (applyNodeUpdate row)).find? (fun r => nodeKeyMatches r m k) =
      (l.find? (fun r => nodeKeyMatches r m k)).map (applyNodeUpdate row) := by
  induction l with
  | nil => rfl
  | cons r rest ih =>
    rw [List.map_cons, List.find?_cons, List.find?_cons,
      nodeKeyMatches_applyNodeUpdate]
    cases nodeKeyMatches r m k with
    | true => rfl
    | false => exact ih

theorem findNode_upsertNode_self (db : Database) (row : NodeItem) :
    ∃ ca da, findNode (upsertNode db row) row.mtId row.key =
      some { row with createdAt := ca, deletedAt := da } := by
  unfold upsertNode findNode
  split
  · rename_i hany
    rcases List.any_eq_true.1 hany with ⟨r0, hr0mem, hr0⟩
    have hfind : (db.nodes.find?
        (fun r => nodeKeyMatches r row.mtId row.key)).isSome :=
      List.find?_isSome.2 ⟨r0, hr0mem, hr0⟩
    rcases Option.isSome_iff_exists.1 hfind with ⟨r1, hr1⟩
    have hp0 := List.find?_some hr1
    have hp1 : nodeKeyMatches r1 row.mtId row.key = true := hp0
    refine ⟨r1.createdAt, r1.deletedAt, ?_⟩
    show (db.nodes.map (applyNodeUpdate row)).find?
        (fun r => nodeKeyMatches r row.mtId row.key) = _
    rw [find?_map_applyNodeUpdate, hr1]
    rcases (nodeKeyMatches_iff r1 row.mtId row.key).1 hp1 with ⟨h1, h2⟩
    show some (applyNodeUpdate row r1) = _
    unfold applyNodeUpdate
    rw [if_pos hp1]
    cases row; cases r1
    simp_all
  · rename_i hany
    refine ⟨row.createdAt, row.deletedAt, ?_⟩
    show (db.nodes ++ [row]).find?
        (fun r => nodeKeyMatches r row.mtId row.key) = _
    rw [List.find?_append]
    have hnone : db.nodes.find? (fun r => nodeKeyMatches r row.mtId row.key)
        = none := by
      rw [List.find?_eq_none]
      intro a ha hpa
      exact hany (List.any_eq_true.2 ⟨a, ha, hpa⟩)
    rw [hnone, Option.none_or, List.find?_cons, nodeKeyMatches_self]

theorem findNode_upsertNode_other (db : Database) (row : NodeItem)
    (m : Nat) (k : List Nat) (h : ¬(row.mtId = m ∧ row.key = k)) :
    findNode (upsertNode db row) m k = findNode db m k := by
  unfold upsertNode findNode
  split
  · show (db.nodes.map (applyNodeUpdate row)).find?
        (fun r => nodeKeyMatches r m k) = _
    rw [find?_map_applyNodeUpdate]
    cases hf : db.nodes.find? (fun r => nodeKeyMatches r m k) with
    | none => rfl
    | some r0 =>
      show some (applyNodeUpdate row r0) = some r0
      have hp0' := List.find?_some hf
      have hp0 : nodeKeyMatches r0 m k = true := hp0'
      rcases (nodeKeyMatches_iff r0 m k).1 hp0 with ⟨h1, h2⟩
      rw [applyNodeUpdate_of_not_matches]
      intro hc
      rcases (nodeKeyMatches_iff r0 row.mtId row.key).1 hc with ⟨h3, h4⟩
      exact h ⟨h3.symm.trans h1, h4.symm.trans h2⟩
  · show (db.nodes ++ [row]).find? (fun r => nodeKeyMatches r m k) = _
    rw [List.find?_append]
    have hsing : [row].find? (fun r => nodeKeyMatches r m k) = none := by
      rw [List.find?_eq_none]
      intro a ha hpa
      rcases List.mem_singleton.1 ha with rfl
      exact h ((nodeKeyMatches_iff a m k).1 hpa)
    rw [hsing, Option.or_none]

theorem roots_upsertNode (db : Database) (row : NodeItem) :
    (upsertNode db row).roots = db.roots := by
  unfold upsertNode; split <;> rfl

theorem nodes_upsertRoot (db : Database) (mtId : Nat) (key : List Nat) :
    (upsertRoot db mtId key).nodes = db.nodes := by
  unfold upsertRoot; split <;> rfl

theorem findNode_upsertRoot (db : Database) (mtId : Nat) (key : List Nat)
    (m : Nat) (k : List Nat) :
    findNode (upsertRoot db mtId key) m k = findNode db m k := by
  unfold findNode
  rw [nodes_upsertRoot]

theorem findRoot_upsertNode (db : Database) (row : NodeItem) (m : Nat) :
    findRoot (upsertNode db row) m = findRoot db m := by
  unfold findRoot
  rw [roots_upsertNode]

theorem find?_map_applyRootUpdate (l : List RootItem) (mtId : Nat)
    (key : List Nat) (m : Nat) :
    (l.map (applyRootUpdate mtId key)).find? (fun r => r.mtId == m) =
      (l.find? (fun r => r.mtId == m)).map (applyRootUpdate mtId key) := by
  induction l with
  | nil => rfl
  | cons r rest ih =>
    rw [List.map_cons, List.find?_cons, List.find?_cons, applyRootUpdate_mtId]
    cases r.mtId == m with
    | true => rfl
    | false => exact ih

theorem findRoot_upsertRoot_other (db : Database) (mtId : Nat)
    (key : List Nat) (m : Nat) (h : mtId ≠ m) :
    findRoot (upsertRoot db mtId key) m = findRoot db m := by
  unfold upsertRoot findRoot
  split
  · show (db.roots.map (applyRootUpdate mtId key)).find?
        (fun r => r.mtId == m) = _
    rw [find?_map_applyRootUpdate]
    cases hf : db.roots.find? (fun r => r.mtId == m) with
    | none => rfl
    | some r0 =>
      show some (applyRootUpdate mtId key r0) = some r0
      have hp0' := List.find?_some hf
      have hp0 : (r0.mtId == m) = true := hp0'
      have hr0 : r0.mtId = m := by simpa using hp0
      unfold applyRootUpdate
      rw [if_neg (by simp [hr0]; exact fun hc => h hc.symm)]
  · show (db.roots ++
        [(⟨mtId, key, none, none⟩ : RootItem)]).find? (fun r => r.mtId == m)
      = _
    rw [List.find?_append]
    have hsing : ([(⟨mtId, key, none, none⟩ : RootItem)].find?
        (fun r => r.mtId == m)) = none := by
      rw [List.find?_eq_none]
      intro a ha hpa
      rcases List.mem_singleton.1 ha with rfl
      exact h (by simpa using hpa)
    rw [hsing, Option.or_none]

/-! ### Primary-key uniqueness and row counts -/

theorem nodesWF_upsertNode (db : Database) (row : NodeItem)
    (h : NodesWF db) : NodesWF (upsertNode db row) := by
  unfold NodesWF upsertNode
  split
  · show (db.nodes.map (applyNodeUpdate row)).Pairwise _
    rw [List.pairwise_map]
    refine h.imp ?_
    intro a b hab
    simp only [applyNodeUpdate_mtId, applyNodeUpdate_key]
    exact hab
  · rename_i hany
    show (db.nodes ++ [row]).Pairwise _
    rw [List.pairwise_append]
    refine ⟨h, List.pairwise_singleton _ _, ?_⟩
    intro a ha b hb
    rcases List.mem_singleton.1 hb with rfl
    intro hc
    exact hany (List.any_eq_true.2
      ⟨a, ha, (nodeKeyMatches_iff a b.mtId b.key).2 hc⟩)

theorem length_filter_map_applyNodeUpdate (l : List NodeItem)
    (row : NodeItem) (m : Nat) (k : List Nat) :
    ((l.map (applyNodeUpdate row)).filter
        (fun r => nodeKeyMatches r m k)).length =
      (l.filter (fun r => nodeKeyMatches r m k)).length := by
  induction l with
  | nil => rfl
  | cons r rest ih =>
    rw [List.map_cons, List.filter_cons, List.filter_cons,
        nodeKeyMatches_applyNodeUpdate]
    cases nodeKeyMatches r m k with
    | true => simp [ih]
    | false => simpa using ih

theorem length_filter_le_one_of_pairwise (l : List NodeItem) (m : Nat)
    (k : List Nat)
    (hp : l.Pairwise (fun a b => ¬(a.mtId = b.mtId ∧ a.key = b.key))) :
    (l.filter (fun r => nodeKeyMatches r m k)).length ≤ 1 := by
  induction l with
  | nil => simp
  | cons r rest ih =>
    rcases List.pairwise_cons.1 hp with ⟨hr, hrest⟩
    rw [List.filter_cons]
    by_cases hmk : nodeKeyMatches r m k = true
    · rw [if_pos hmk]
      have hnil : rest.filter (fun x => nodeKeyMatches x m k) = [] := by
        rw [List.filter_eq_nil_iff]
        intro a ha hpa
        rcases (nodeKeyMatches_iff a m k).1 hpa with ⟨h1, h2⟩
        rcases (nodeKeyMatches_iff r m k).1 hmk with ⟨h3, h4⟩
        exact hr a ha ⟨h3.trans h1.symm, h4.trans h2.symm⟩
      rw [hnil]
      simp
    · rw [if_neg hmk]
      exact ih hrest

theorem one_le_length_filter (l : List NodeItem) (p : NodeItem → Bool)
    (h : l.any p = true) : 1 ≤ (l.filter p).length := by
  rcases List.any_eq_true.1 h with ⟨a, ha, hpa⟩
  have hmem : a ∈ l.filter p := List.mem_filter.2 ⟨ha, hpa⟩
  exact List.length_pos_of_mem hmem

theorem length_filter_upsertNode_self (db : Database) (row : NodeItem)
    (hdb : NodesWF db) :
    ((upsertNode db row).nodes.filter
        (fun r => nodeKeyMatches r row.mtId row.key)).length = 1 := by
  unfold upsertNode
  split
  · rename_i hany
    show ((db.nodes.map (applyNodeUpdate row)).filter _).length = 1
    rw [length_filter_map_applyNodeUpdate]
    have h1 := length_filter_le_one_of_pairwise db.nodes row.mtId row.key hdb
    have h2 := one_le_length_filter db.nodes _ hany
    omega
  · rename_i hany
    show ((db.nodes ++ [row]).filter _).length = 1
    rw [List.filter_append]
    have hnil : db.nodes.filter (fun r => nodeKeyMatches r row.mtId row.key)
        = [] := by
      rw [List.filter_eq_nil_iff]
      intro a ha hpa
      exact hany (List.any_eq_true.2 ⟨a, ha, hpa⟩)
    rw [hnil]
    simp [List.filter_cons, nodeKeyMatches_self]

/-! ### Unfolding helpers for the storage operations -/

theorem get_findNode_some (s : Storage) (db : Database) (k : List Nat)
    (item : NodeItem) (hf : findNode db s.mtId k = some item) :
    s.Get db none k = item.toNode := by
  unfold Storage.Get getContextNode
  rw [hf]

theorem get_findNode_none (s : Storage) (db : Database) (k : List Nat)
    (hf : findNode db s.mtId k = none) :
    s.Get db none k = .error .errNotFound := by
  unfold Storage.Get getContextNode
  rw [hf]
  rfl

theorem get_congr_db (s : Storage) (db1 db2 : Database)
    (fault : Option String) (k : List Nat)
    (h : findNode db1 s.mtId k = findNode db2 s.mtId k) :
    s.Get db1 fault k = s.Get db2 fault k := by
  cases fault <;> simp [Storage.Get, getContextNode, h]

theorem getRoot_congr_db (s : Storage) (db1 db2 : Database)
    (fault : Option String)
    (h : findRoot db1 s.mtId = findRoot db2 s.mtId) :
    s.GetRoot db1 fault = s.GetRoot db2 fault := by
  cases hs : s.currentRoot <;> cases fault <;>
    simp [Storage.GetRoot, getContextRoot, h, hs]

theorem getRoot_of_cached (s : Storage) (db : Database)
    (fault : Option String) (c : List Nat) (hs : s.currentRoot = some c) :
    s.GetRoot db fault = (s, .ok (goCopy zeroHash c)) := by
  unfold Storage.GetRoot
  rw [hs]

theorem setRoot_storage (s : Storage) (db : Database)
    (fault : Option String) (h : List Nat) :
    (s.SetRoot db fault h).1 =
      { s with currentRoot := some (goCopy (s.currentRoot.getD zeroHash) h) } := by
  cases hs : s.currentRoot with
  | none => cases fault <;> simp [Storage.SetRoot, hs]
  | some c => cases fault <;> simp [Storage.SetRoot, hs]

theorem setRoot_currentRoot (s : Storage) (db : Database)
    (fault : Option String) (h : List Nat) (hc : CacheWF s)
    (hl : h.length = 32) :
    ((s.SetRoot db fault h).1).currentRoot = some h := by
  rw [setRoot_storage]
  show some (goCopy ((s.currentRoot).getD zeroHash) h) = some h
  cases hs : s.currentRoot with
  | none =>
    simp only [Option.getD_none]
    rw [goCopy_of_length_eq _ _ (by simp [zeroHash, hl])]
  | some c =>
    simp only [Option.getD_some]
    rw [goCopy_of_length_eq _ _ ((hc c hs).trans hl.symm)]

theorem setRoot_fault_db (s : Storage) (db : Database) (m : String)
    (h : List Nat) : (s.SetRoot db (some m) h).2.1 = db := rfl

theorem setRoot_fault_err (s : Storage) (db : Database) (m : String)
    (h : List Nat) : (s.SetRoot db (some m) h).2.2 =
      .error (newErr (.dbError m) "failed to update current root hash") := rfl

theorem nodes_put (s : Storage) (db : Database) (k : List Nat) (n : Node) :
    ((s.Put db none k n).1) = upsertNode db (putRow s.mtId k n) := rfl

theorem roots_put (s : Storage) (db : Database) (k : List Nat) (n : Node) :
    ((s.Put db none k n).1).roots = db.roots := by
  rw [nodes_put, roots_upsertNode]

theorem nodes_setRoot (s : Storage) (db : Database) (fault : Option String)
    (h : List Nat) : ((s.SetRoot db fault h).2.1).nodes = db.nodes := by
  cases hs : s.currentRoot <;> cases fault <;>
    simp [Storage.SetRoot, hs, nodes_upsertRoot]

theorem findRoot_setRoot_other (s : Storage) (db : Database)
    (fault : Option String) (h : List Nat) (m : Nat) (hm : s.mtId ≠ m) :
    findRoot ((s.SetRoot db fault h).2.1) m = findRoot db m := by
  cases hs : s.currentRoot <;> cases fault <;>
    simp [Storage.SetRoot, hs, findRoot_upsertRoot_other _ _ _ _ hm]

/-! ### Write traces -/

theorem findNode_applyOp (db : Database) (op : Op) (m : Nat) (k : List Nat)
    (h : writesNodeKey op m k = false) :
    findNode (applyOp db op) m k = findNode db m k := by
  cases op with
  | putOp m2 k2 node =>
    show findNode (upsertNode db (putRow m2 k2 node)) m k = _
    apply findNode_upsertNode_other
    intro hc
    rcases hc with ⟨h1, h2⟩
    simp only [writesNodeKey] at h
    rw [show (putRow m2 k2 node).mtId = m2 from rfl] at h1
    rw [show (putRow m2 k2 node).key = k2 from rfl] at h2
    simp [h1, h2] at h
  | setRootOp m2 h2 =>
    show findNode ((Storage.SetRoot (NewSqlStorage m2) db none h2).2.1) m k = _
    unfold findNode
    rw [nodes_setRoot]

theorem findNode_applyOps (db : Database) (ops : List Op) (m : Nat)
    (k : List Nat) (h : ∀ op ∈ ops, writesNodeKey op m k = false) :
    findNode (applyOps db ops) m k = findNode db m k := by
  induction ops generalizing db with
  | nil => rfl
  | cons op rest ih =>
    show findNode (applyOps (applyOp db op) rest) m k = _
    rw [ih _ (fun o ho => h o (List.mem_cons_of_mem _ ho)),
      findNode_applyOp _ _ _ _ (h op (List.mem_cons_self _ _))]

/-! ### The codec round-trip -/

theorem toNode_timestamps (item : NodeItem) (ca da : Option Nat) :
    NodeItem.toNode { item with createdAt := ca, deletedAt := da } =
      item.toNode := rfl

theorem toNode_putRow_of_valid (m : Nat) (k : List Nat) (n : Node)
    (h : ValidNode n) : (putRow m k n).toNode = .ok n := by
  rcases h with ⟨ht, hcl, hcr, e0, e1, he0, he1, h0, h1⟩ |
    ⟨ht, ⟨l, r, hl, hr, hcl, hcr⟩, h0, h1⟩ | ⟨ht, hcl, hcr, h0, h1⟩
  · have hrow : putRow m k n =
        ⟨m, k, n.type, none, none, some (e0 ++ e1), none, none⟩ := by
      unfold putRow
      rw [hcl, hcr]
      simp [encodeChild, encodeEntry, h0, h1]
    rw [hrow]
    have htake : (e0 ++ e1).take 32 = e0 := List.take_left' he0
    have hdrop : (e0 ++ e1).drop 32 = e1 := List.drop_left' he0
    have htake1 : e1.take 32 = e1 := List.take_of_length_le (by omega)
    have hlen : (e0 ++ e1).length = 64 := by
      rw [List.length_append, he0, he1]
    unfold NodeItem.toNode
    simp only [Option.getD_some, hlen, ElemBytesLen]
    rw [if_pos (by omega), if_neg (by omega)]
    rw [htake, hdrop, htake1, goCopy_zeroHash e0 he0, goCopy_zeroHash e1 he1]
    cases n
    simp_all
  · have hrow : putRow m k n =
        ⟨m, k, n.type, some l, some r, none, none, none⟩ := by
      unfold putRow
      rw [hcl, hcr]
      simp [encodeChild, encodeEntry, h0, h1]
    rw [hrow]
    unfold NodeItem.toNode
    simp only [Option.getD_none, List.length_nil]
    rw [if_neg (by omega)]
    rw [show (some l).map (fun b => goCopy zeroHash b) =
        some (goCopy zeroHash l) from rfl]
    rw [show (some r).map (fun b => goCopy zeroHash b) =
        some (goCopy zeroHash r) from rfl]
    rw [goCopy_zeroHash l hl, goCopy_zeroHash r hr]
    cases n
    simp_all
  · have hrow : putRow m k n =
        ⟨m, k, n.type, none, none, none, none, none⟩ := by
      unfold putRow
      rw [hcl, hcr]
      simp [encodeChild, encodeEntry, h0, h1]
    rw [hrow]
    unfold NodeItem.toNode
    simp only [Option.getD_none, List.length_nil]
    rw [if_neg (by omega)]
    cases n
    simp_all

/-! ### The claims -/

/-- C1: for every valid Node (leaf with both entry halves and no children,
middle with children and no entry, empty with neither), encoding it with
Put's row encoding and decoding the row with the node decoder yields the
original node: type, childL, childR and entry are all preserved. -/
theorem put_encode_decode_roundtrip (m : Nat) (k : List Nat) (n : Node)
    (h : ValidNode n) : (putRow m k n).toNode = .ok n :=
  toNode_putRow_of_valid m k n h

theorem put_encode_decode_roundtrip_witness :
    ValidNode ⟨1, none, none, some (List.replicate 32 7),
      some (List.replicate 32 9)⟩ ∧
    (putRow 5 [1, 2] ⟨1, none, none, some (List.replicate 32 7),
      some (List.replicate 32 9)⟩).toNode =
      .ok ⟨1, none, none, some (List.replicate 32 7),
        some (List.replicate 32 9)⟩ := by
  have hv : ValidNode ⟨1, none, none, some (List.replicate 32 7),
      some (List.replicate 32 9)⟩ :=
    Or.inl ⟨rfl, rfl, rfl, List.replicate 32 7, List.replicate 32 9,
      by simp, by simp, rfl, rfl⟩
  exact ⟨hv, put_encode_decode_roundtrip 5 [1, 2] _ hv⟩

/-- C2: for every key never written under the storage's instance id across
any sequence of successful writes starting from empty tables, Get returns
the distinguished `ErrNotFound`, not a generic error and not a node. -/
theorem get_unwritten_key_notFound (s : Storage) (k : List Nat)
    (ops : List Op) (h : ∀ op ∈ ops, writesNodeKey op s.mtId k = false) :
    s.Get (applyOps Database.empty ops) none k = .error .errNotFound := by
  apply get_findNode_none
  rw [findNode_applyOps _ _ _ _ h]
  rfl

theorem get_unwritten_key_notFound_witness :
    (∀ op ∈ [Op.putOp 2 [1] ⟨2, none, none, none, none⟩, Op.setRootOp 1 [3]],
      writesNodeKey op (NewSqlStorage 1).mtId [1] = false) ∧
    Storage.Get (NewSqlStorage 1)
      (applyOps Database.empty
        [Op.putOp 2 [1] ⟨2, none, none, none, none⟩, Op.setRootOp 1 [3]])
      none [1] = .error .errNotFound :=
  ⟨by decide, get_unwritten_key_notFound (NewSqlStorage 1) [1] _ (by decide)⟩

/-- C3: decoding a row whose entry column has nonzero length different from
twice the fixed hash size (64 bytes) fails with the distinguished
bad-entry-size error; the entry is never truncated or padded. -/
theorem decode_bad_entry_size (item : NodeItem)
    (h0 : (item.entry.getD []).length ≠ 0)
    (h64 : (item.entry.getD []).length ≠ 64) :
    item.toNode = .error .errNodeBytesBadSize := by
  simp only [NodeItem.toNode]
  rw [if_pos (Nat.pos_of_ne_zero h0),
    if_pos (by simp only [ElemBytesLen]; omega)]

theorem decode_bad_entry_size_witness :
    ((⟨1, [1], 1, none, none, some [9], none, none⟩ : NodeItem).toNode =
      .error .errNodeBytesBadSize) ∧
    ((⟨1, [1], 1, none, none, some (List.replicate 31 0), none,
      none⟩ : NodeItem).toNode = .error .errNodeBytesBadSize) ∧
    ((⟨1, [1], 1, none, none, some (List.replicate 65 0), none,
      none⟩ : NodeItem).toNode = .error .errNodeBytesBadSize) :=
  ⟨decode_bad_entry_size _ (by decide) (by decide),
   decode_bad_entry_size _ (by decide) (by decide),
   decode_bad_entry_size _ (by decide) (by decide)⟩

/-- C4: Put(key, nodeA) then Put(key, nodeB) under one instance id leaves
Get(key) returning nodeB (last write wins), with exactly one row for
(instance id, key) afterwards. -/
theorem put_put_get_last_write_wins (s : Storage) (db : Database)
    (k : List Nat) (nA nB : Node) (hB : ValidNode nB) (hdb : NodesWF db) :
    Storage.Get s
      ((Storage.Put s ((Storage.Put s db none k nA).1) none k nB).1) none k
      = .ok nB ∧
    (((Storage.Put s ((Storage.Put s db none k nA).1) none k nB).1).nodes.filter
        (fun r => nodeKeyMatches r s.mtId k)).length = 1 := by
  have hdb1 : NodesWF ((Storage.Put s db none k nA).1) :=
    nodesWF_upsertNode _ _ hdb
  constructor
  · rcases findNode_upsertNode_self (upsertNode db (putRow s.mtId k nA))
        (putRow s.mtId k nB) with ⟨ca, da, hfind⟩
    have hfind2 : findNode
        ((Storage.Put s ((Storage.Put s db none k nA).1) none k nB).1)
        s.mtId k =
        some { putRow s.mtId k nB with createdAt := ca, deletedAt := da } :=
      hfind
    rw [get_findNode_some s _ k _ hfind2, toNode_timestamps]
    exact toNode_putRow_of_valid s.mtId k nB hB
  · exact length_filter_upsertNode_self (upsertNode db (putRow s.mtId k nA))
      (putRow s.mtId k nB) hdb1

theorem put_put_get_last_write_wins_witness :
    ValidNode ⟨2, none, none, none, none⟩ ∧ NodesWF Database.empty ∧
    (Storage.Get (NewSqlStorage 3)
      ((Storage.Put (NewSqlStorage 3)
        ((Storage.Put (NewSqlStorage 3) Database.empty none [4]
          ⟨1, none, none, some (List.replicate 32 1),
            some (List.replicate 32 2)⟩).1) none [4]
        ⟨2, none, none, none, none⟩).1) none [4]
      = .ok ⟨2, none, none, none, none⟩ ∧
    (((Storage.Put (NewSqlStorage 3)
        ((Storage.Put (NewSqlStorage 3) Database.empty none [4]
          ⟨1, none, none, some (List.replicate 32 1),
            some (List.replicate 32 2)⟩).1) none [4]
        ⟨2, none, none, none, none⟩).1).nodes.filter
        (fun r => nodeKeyMatches r (NewSqlStorage 3).mtId [4])).length = 1) := by
  have hv : ValidNode ⟨2, none, none, none, none⟩ :=
    Or.inr (Or.inr ⟨rfl, rfl, rfl, rfl, rfl⟩)
  have hdb : NodesWF Database.empty := List.Pairwise.nil
  exact ⟨hv, hdb, put_put_get_last_write_wins (NewSqlStorage 3)
    Database.empty [4] _ _ hv hdb⟩

/-- C5: a warm root cache answers GetRoot without any storage read (any
database contents and even an injected storage error are irrelevant); the
cache is warm after SetRoot(h), whose value h GetRoot then returns, and
after any first successful GetRoot, whose value subsequent calls repeat. -/
theorem getRoot_uses_cache (s : Storage) :
    (∀ db fault c, s.currentRoot = some c → c.length = 32 →
      s.GetRoot db fault = (s, .ok c)) ∧
    (∀ db f1 db2 f2 h, CacheWF s → h.length = 32 →
      Storage.GetRoot ((s.SetRoot db f1 h).1) db2 f2 =
        ((s.SetRoot db f1 h).1, .ok h)) ∧
    (∀ db f s1 r db2 f2, s.GetRoot db f = (s1, .ok r) →
      s1.GetRoot db2 f2 = (s1, .ok r)) := by
  refine ⟨?_, ?_, ?_⟩
  · intro db fault c hs hl
    rw [getRoot_of_cached s db fault c hs, goCopy_zeroHash c hl]
  · intro db f1 db2 f2 h hc hl
    have hcur := setRoot_currentRoot s db f1 h hc hl
    rw [getRoot_of_cached _ db2 f2 h hcur, goCopy_zeroHash h hl]
  · intro db f s1 r db2 f2 hget
    cases hs : s.currentRoot with
    | some c =>
      rw [getRoot_of_cached s db f c hs] at hget
      simp only [Prod.mk.injEq, Except.ok.injEq] at hget
      obtain ⟨rfl, rfl⟩ := hget
      exact getRoot_of_cached s db2 f2 c hs
    | none =>
      unfold Storage.GetRoot at hget
      rw [hs] at hget
      cases hg : getContextRoot db f s.mtId with
      | error e =>
        rw [hg] at hget
        by_cases he : e = GoError.errNoRows
        · subst he
          simp at hget
        · simp [he] at hget
      | ok item =>
        rw [hg] at hget
        simp only [Prod.mk.injEq, Except.ok.injEq] at hget
        obtain ⟨h1, rfl⟩ := hget
        subst h1
        exact getRoot_of_cached _ db2 f2 (goCopy zeroHash item.key) rfl

theorem getRoot_uses_cache_witness :
    ((⟨7, 0, some (List.replicate 32 3)⟩ : Storage).currentRoot =
        some (List.replicate 32 3) ∧
      (List.replicate 32 3).length = 32 ∧
      Storage.GetRoot ⟨7, 0, some (List.replicate 32 3)⟩ Database.empty
        (some "disk gone") =
        (⟨7, 0, some (List.replicate 32 3)⟩, .ok (List.replicate 32 3))) ∧
    (CacheWF (NewSqlStorage 7) ∧ (List.replicate 32 4).length = 32 ∧
      Storage.GetRoot
        ((Storage.SetRoot (NewSqlStorage 7) Database.empty none
          (List.replicate 32 4)).1) Database.empty (some "disk gone") =
        ((Storage.SetRoot (NewSqlStorage 7) Database.empty none
          (List.replicate 32 4)).1, .ok (List.replicate 32 4))) := by
  have hcw : CacheWF (NewSqlStorage 7) := by
    intro c hc
    simp only [NewSqlStorage] at hc
    cases hc
  refine ⟨⟨rfl, by simp, ?_⟩, ⟨hcw, by simp, ?_⟩⟩
  · exact (getRoot_uses_cache ⟨7, 0, some (List.replicate 32 3)⟩).1
      Database.empty (some "disk gone") (List.replicate 32 3) rfl (by simp)
  · exact (getRoot_uses_cache (NewSqlStorage 7)).2.1 Database.empty none
      Database.empty (some "disk gone") (List.replicate 32 4) hcw (by simp)

/-- C6: writes (Put, SetRoot) under instance id A never change what Get or
GetRoot observe under a different instance id B, even for the same key
bytes. -/
theorem namespace_isolation (sA sB : Storage) (db : Database)
    (fault : Option String) (k kB h : List Nat) (node : Node)
    (hne : sA.mtId ≠ sB.mtId) :
    Storage.Get sB ((Storage.Put sA db none k node).1) fault kB =
      Storage.Get sB db fault kB ∧
    Storage.GetRoot sB ((Storage.Put sA db none k node).1) fault =
      Storage.GetRoot sB db fault ∧
    Storage.Get sB ((Storage.SetRoot sA db none h).2.1) fault kB =
      Storage.Get sB db fault kB ∧
    Storage.GetRoot sB ((Storage.SetRoot sA db none h).2.1) fault =
      Storage.GetRoot sB db fault := by
  refine ⟨?_, ?_, ?_, ?_⟩
  · apply get_congr_db
    apply findNode_upsertNode_other
    intro hc
    exact hne hc.1
  · apply getRoot_congr_db
    exact findRoot_upsertNode db (putRow sA.mtId k node) sB.mtId
  · apply get_congr_db
    unfold findNode
    rw [nodes_setRoot]
  · apply getRoot_congr_db
    exact findRoot_setRoot_other sA db none h sB.mtId hne

theorem namespace_isolation_witness :
    (NewSqlStorage 1).mtId ≠ (NewSqlStorage 2).mtId ∧
    (Storage.Get (NewSqlStorage 2)
        ((Storage.Put (NewSqlStorage 1) Database.empty none [5]
          ⟨2, none, none, none, none⟩).1) none [5] =
      Storage.Get (NewSqlStorage 2) Database.empty none [5] ∧
    Storage.GetRoot (NewSqlStorage 2)
        ((Storage.Put (NewSqlStorage 1) Database.empty none [5]
          ⟨2, none, none, none, none⟩).1) none =
      Storage.GetRoot (NewSqlStorage 2) Database.empty none ∧
    Storage.Get (NewSqlStorage 2)
        ((Storage.SetRoot (NewSqlStorage 1) Database.empty none
          (List.replicate 32 8)).2.1) none [5] =
      Storage.Get (NewSqlStorage 2) Database.empty none [5] ∧
    Storage.GetRoot (NewSqlStorage 2)
        ((Storage.SetRoot (NewSqlStorage 1) Database.empty none
          (List.replicate 32 8)).2.1) none =
      Storage.GetRoot (NewSqlStorage 2) Database.empty none) :=
  ⟨by decide, namespace_isolation (NewSqlStorage 1) (NewSqlStorage 2)
    Database.empty none [5] [5] (List.replicate 32 8)
    ⟨2, none, none, none, none⟩ (by decide)⟩

/-- C7: when the durable write fails, SetRoot returns the failure wrapped
with the context string "failed to update current root hash"; the wrapper's
message is the context string followed by the cause's message, and it
unwraps to the original storage error. -/
theorem setRoot_error_wrapped (s : Storage) (db : Database) (m : String)
    (h : List Nat) :
    (Storage.SetRoot s db (some m) h).2.2 =
      .error (newErr (.dbError m) "failed to update current root hash") ∧
    (newErr (.dbError m) "failed to update current root hash").errorMsg =
      "failed to update current root hash" ++ ": " ++
        (GoError.dbError m).errorMsg ∧
    (newErr (.dbError m) "failed to update current root hash").unwrap =
      some (.dbError m) :=
  ⟨rfl, rfl, rfl⟩

theorem setRoot_error_wrapped_witness :
    (Storage.SetRoot (NewSqlStorage 4) Database.empty (some "EOF")
        (List.replicate 32 2)).2.2 =
      .error (newErr (.dbError "EOF") "failed to update current root hash") ∧
    (newErr (.dbError "EOF") "failed to update current root hash").errorMsg =
      "failed to update current root hash" ++ ": " ++
        (GoError.dbError "EOF").errorMsg ∧
    (newErr (.dbError "EOF") "failed to update current root hash").unwrap =
      some (.dbError "EOF") :=
  setRoot_error_wrapped (NewSqlStorage 4) Database.empty "EOF"
    (List.replicate 32 2)

/-- C8: SetRoot writes the cache before the durable write, so on a failed
durable write the cache holds the new root while the database still holds
the old rows; a subsequent GetRoot returns the new root from the cache. -/
theorem setRoot_cache_ahead_on_failure (s : Storage) (db db2 : Database)
    (m : String) (h : List Nat) (f2 : Option String)
    (hc : CacheWF s) (hl : h.length = 32) :
    ((Storage.SetRoot s db (some m) h).1).currentRoot = some h ∧
    (Storage.SetRoot s db (some m) h).2.1 = db ∧
    (∃ e, (Storage.SetRoot s db (some m) h).2.2 = .error e) ∧
    Storage.GetRoot ((Storage.SetRoot s db (some m) h).1) db2 f2 =
      ((Storage.SetRoot s db (some m) h).1, .ok h) := by
  have hcur := setRoot_currentRoot s db (some m) h hc hl
  refine ⟨hcur, rfl, ⟨_, rfl⟩, ?_⟩
  rw [getRoot_of_cached _ db2 f2 h hcur, goCopy_zeroHash h hl]

theorem setRoot_cache_ahead_on_failure_witness :
    CacheWF (NewSqlStorage 9) ∧ (List.replicate 32 6).length = 32 ∧
    (((Storage.SetRoot (NewSqlStorage 9) Database.empty (some "io error")
        (List.replicate 32 6)).1).currentRoot = some (List.replicate 32 6) ∧
    (Storage.SetRoot (NewSqlStorage 9) Database.empty (some "io error")
        (List.replicate 32 6)).2.1 = Database.empty ∧
    (∃ e, (Storage.SetRoot (NewSqlStorage 9) Database.empty (some "io error")
        (List.replicate 32 6)).2.2 = .error e) ∧
    Storage.GetRoot ((Storage.SetRoot (NewSqlStorage 9) Database.empty
        (some "io error") (List.replicate 32 6)).1) Database.empty
        (some "still failing") =
      ((Storage.SetRoot (NewSqlStorage 9) Database.empty (some "io error")
        (List.replicate 32 6)).1, .ok (List.replicate 32 6))) := by
  have hcw : CacheWF (NewSqlStorage 9) := by
    intro c hc
    simp only [NewSqlStorage] at hc
    cases hc
  exact ⟨hcw, by simp, setRoot_cache_ahead_on_failure (NewSqlStorage 9)
    Database.empty Database.empty "io error" (List.replicate 32 6)
    (some "still failing") hcw (by simp)⟩

/-- C9: Put and SetRoot never return the distinguished `ErrNotFound`, for
any key, node, hash, database contents or driver failure; only Get and
GetRoot can produce it. -/
theorem put_setRoot_never_notFound (s : Storage) (db : Database)
    (fault : Option String) (k h : List Nat) (node : Node) :
    (Storage.Put s db fault k node).2 ≠ .error .errNotFound ∧
    (Storage.SetRoot s db fault h).2.2 ≠ .error .errNotFound := by
  constructor
  · cases fault <;> simp [Storage.Put]
  · cases hs : s.currentRoot <;> cases fault <;>
      simp [Storage.SetRoot, newErr, hs]

theorem put_setRoot_never_notFound_witness :
    (Storage.Put (NewSqlStorage 1) Database.empty (some "locked") [1]
        ⟨2, none, none, none, none⟩).2 ≠ .error .errNotFound ∧
    (Storage.SetRoot (NewSqlStorage 1) Database.empty (some "locked")
        (List.replicate 32 1)).2.2 ≠ .error .errNotFound :=
  put_setRoot_never_notFound (NewSqlStorage 1) Database.empty
    (some "locked") [1] (List.replicate 32 1) ⟨2, none, none, none, none⟩

/-- C10: decoding fails only on the entry-size check: a row whose entry is
empty or exactly 64 bytes decodes successfully whatever the lengths of its
child columns (each present child is truncated or zero-padded into the
32-byte hash) and whatever the type discriminant. -/
theorem decode_only_checks_entry_size (item : NodeItem)
    (h : (item.entry.getD []).length = 0 ∨ (item.entry.getD []).length = 64) :
    ∃ n, item.toNode = .ok n ∧ n.type = item.type ∧
      n.childL = item.childL.map
        (fun b => b.take 32 ++ List.replicate (32 - b.length) 0) ∧
      n.childR = item.childR.map
        (fun b => b.take 32 ++ List.replicate (32 - b.length) 0) := by
  have hmap : ∀ o : Option (List Nat),
      o.map (fun b => goCopy zeroHash b) =
        o.map (fun b => b.take 32 ++ List.replicate (32 - b.length) 0) := by
    intro o
    cases o with
    | none => rfl
    | some b => simp [goCopy_zeroHash_eq_take_pad]
  rcases h with h0 | h64
  · have hok : item.toNode = .ok ⟨item.type,
        item.childL.map (fun b => goCopy zeroHash b),
        item.childR.map (fun b => goCopy zeroHash b), none, none⟩ := by
      simp only [NodeItem.toNode]
      rw [if_neg (by omega)]
    exact ⟨_, hok, rfl, hmap item.childL, hmap item.childR⟩
  · have hok : item.toNode = .ok ⟨item.type,
        item.childL.map (fun b => goCopy zeroHash b),
        item.childR.map (fun b => goCopy zeroHash b),
        some (goCopy zeroHash ((item.entry.getD []).take 32)),
        some (goCopy zeroHash (((item.entry.getD []).drop 32).take 32))⟩ := by
      simp only [NodeItem.toNode]
      rw [if_pos (by omega), if_neg (by simp only [ElemBytesLen]; omega)]
    exact ⟨_, hok, rfl, hmap item.childL, hmap item.childR⟩

theorem decode_only_checks_entry_size_witness :
    (((⟨5, [1], 1, some (List.replicate 40 3), some [7], none, none,
        none⟩ : NodeItem).entry.getD []).length = 0 ∨
      ((⟨5, [1], 1, some (List.replicate 40 3), some [7], none, none,
        none⟩ : NodeItem).entry.getD []).length = 64) ∧
    (∃ n, (⟨5, [1], 1, some (List.replicate 40 3), some [7], none, none,
        none⟩ : NodeItem).toNode = .ok n ∧
      n.type = 1 ∧
      n.childL = some ((List.replicate 40 3).take 32 ++
        List.replicate (32 - (List.replicate 40 3).length) 0) ∧
      n.childR = some ([7].take 32 ++ List.replicate (32 - [7].length) 0)) :=
  ⟨Or.inl (by decide), decode_only_checks_entry_size _ (Or.inl (by decide))⟩

end SmtSqlite
